import Mathlib

/-!
# wfiv: selection, fetch and render pipeline

A shallow embedding of `main.go` of the `wfiv` command (a terminal viewer for
Google webfonts) and the properties of its `show` subcommand.

The program orchestrates external collaborators (the glob library, the webfonts
catalog, the caching HTTP transport, the rasterization engine and the terminal
encoder).  They are the fields of `Env`; the ones that touch the outside world
thread a world state `σ`, so that two calls with the same arguments may give
different outcomes.  Go errors are their message text, a Go `(value, error)`
result that the program only inspects through `err != nil` is an `Except`, and
the `(image, error)` results that are passed on untouched are kept as pairs.
-/

namespace Wfiv

/-- Go `error` values, represented by their message (what `%v` and `%w` print). -/
abbrev Err := String

/-- Raw bytes (`[]byte`). -/
abbrev Bytes := List UInt8

/-- Catalog entry (`gfonts.Webfont`): the family name, and catalog metadata that the
program never interprets. -/
structure Webfont where
  Family : String
  Category : String
deriving DecidableEq, Repr

/-- Resolved font face returned by `webfonts.WOFF2`; only `Src` is read. -/
structure Face where
  Src : String
deriving DecidableEq, Repr

/-- The parts of an `*http.Response` that `grab` looks at: the status code, the
`Content-Type` header and what `io.ReadAll(res.Body)` yields. -/
structure Response where
  StatusCode : Int
  ContentType : String
  Body : Except Err Bytes

/-- How a Go call ends: it returns, or it panics with a value (kept as the text that
`%v` prints for it; `recover` gives a non-nil value for every panic). -/
inductive Outcome (α : Type) where
  | returned (a : α)
  | panicked (v : String)
deriving DecidableEq, Repr

/-- Calls made to the collaborators that reach outside the process, in the order they
are made. -/
inductive Call where
  | diskcacheNew (verbose : Bool)
  | families (key : String)
  | woff2 (family : String)
  | httpDo (url : String)
  | readAll
  | bodyClose
  | rasterize (buf : Bytes)
  | encode
deriving DecidableEq, Repr

/-- The `Args` struct.  `logger` is `true` once `init` has installed the stderr
logger and `false` for the no-op logger that `main` starts with; the cache
transport lives in the world state. -/
structure Args where
  Verbose : Bool
  Key : String
  All : Bool
  FontSize : Nat
  FontStyle : Nat
  FontVariant : Nat
  FontFg : String
  FontBg : String
  FontDPI : Nat
  FontMargin : Nat
  logger : Bool
deriving DecidableEq, Repr

/-- The external collaborators.
* `Available`, `ErrTermGraphicsNotAvailable`, `Encode`: package `rasterm`;
* `diskcacheNew`: `diskcache.New` as called by `buildCache` (with or without the
  logging transport);
* `Compile`, `Match`: package `glob`;
* `quote`: the `%q` verb of package `fmt`;
* `webfontsAvailable`, `WOFF2`: package `webfonts`;
* `NewRequest`: `http.NewRequestWithContext(ctx, "GET", url, nil)` (only whether it
  fails), `Do`: `(*http.Client).Do` over the cache transport;
* `Rasterize`: `fontimg.New(buf, "").Rasterize(nil, size, style, variant, fg, bg,
  dpi, margin)`, which may panic;
* `Encode` writes to the sink and returns an error or nil;
* `ctxDone`: whether the shared context `ctx`, which the program only hands on to
  `webfonts` and to the HTTP request, has been cancelled. -/
structure Env (σ G Img : Type) where
  ctxDone : σ → Bool
  Available : Bool
  ErrTermGraphicsNotAvailable : Err
  diskcacheNew : Bool → σ → Option Err × σ
  Compile : String → Except Err G
  Match : G → String → Bool
  quote : String → String
  webfontsAvailable : String → σ → Except Err (List Webfont) × σ
  WOFF2 : String → σ → Except Err Face × σ
  NewRequest : String → Option Err
  Do : String → σ → Except Err Response × σ
  Rasterize : Bytes → Int → Nat → Nat → String → String → Nat → Nat →
    Outcome (Option Img × Option Err)
  Encode : Option Img → σ → (List String × Option Err) × σ

/-- The state of a run: the outside world, the writes made to the sink `w` (one entry
per write, oldest first), the lines logged to stderr and the collaborator calls. -/
structure St (σ : Type) where
  world : σ
  out : List String
  stderr : List String
  calls : List Call
deriving DecidableEq, Repr

/-- One write to the sink `w`. -/
def St.write {σ : Type} (st : St σ) (s : String) : St σ :=
  { st with out := st.out ++ [s] }

/-- Several successive writes to the sink `w`. -/
def St.writes {σ : Type} (st : St σ) (ss : List String) : St σ :=
  { st with out := st.out ++ ss }

/-- Record a collaborator call. -/
def St.call {σ : Type} (st : St σ) (c : Call) : St σ :=
  { st with calls := st.calls ++ [c] }

/-- Replace the world by the one a collaborator left behind. -/
def St.setWorld {σ : Type} (st : St σ) (w : σ) : St σ :=
  { st with world := w }

/-- The call `args.logger(s, v...)` with the message already formatted: the stderr
logger appends a newline, the initial logger does nothing. -/
def Args.log {σ : Type} (args : Args) (msg : String) (st : St σ) : St σ :=
  if args.logger then { st with stderr := st.stderr ++ [msg ++ "\n"] } else st

/-- Go conversion `int(u)` of a 64-bit `uint`. -/
def uintToInt (u : Nat) : Int :=
  if u % 2 ^ 64 < 2 ^ 63 then ((u % 2 ^ 64 : Nat) : Int) else ((u % 2 ^ 64 : Nat) : Int) - 2 ^ 64

/-- The method `buildCache`: creates the disk cache transport. -/
def Args.buildCache {σ G Img : Type} (env : Env σ G Img) (args : Args) (st : St σ) :
    Option Err × St σ :=
  let st := st.call (.diskcacheNew args.Verbose)
  match env.diskcacheNew args.Verbose st.world with
  | (err, w) => (err, st.setWorld w)

/-- The method `init`: checks the key, installs the verbose logger, builds the cache. -/
def Args.init {σ G Img : Type} (env : Env σ G Img) (args : Args) (st : St σ) :
    Option Err × Args × St σ :=
  if args.Key = "" then
    (some "must provide -key", args, st)
  else
    let args := if args.Verbose then { args with logger := true } else args
    match args.buildCache env st with
    | (some err, st) => (some err, args, st)
    | (none, st) => (none, args, st)

/-- The method `families`: retrieves the available webfont families. -/
def Args.families {σ G Img : Type} (env : Env σ G Img) (args : Args) (st : St σ) :
    Except Err (List Webfont) × St σ :=
  let st := st.call (.families args.Key)
  match env.webfontsAvailable args.Key st.world with
  | (r, w) => (r, st.setWorld w)

/-- The method `rasterize`.  The named results `img` and `err` start as nil; the
deferred function recovers a panic of the engine and overwrites `err`.  The engine gets
`int(args.FontSize)`, and the dpi and the margin as the integers that the program
converts to `float64`. -/
def Args.rasterize {σ G Img : Type} (env : Env σ G Img) (args : Args) (buf : Bytes) :
    Outcome (Option Img × Option Err) :=
  match env.Rasterize buf (uintToInt args.FontSize) args.FontStyle args.FontVariant
      args.FontFg args.FontBg args.FontDPI args.FontMargin with
  | .returned (img, err) => .returned (img, err)
  | .panicked e => .returned (none, some ("caught panic: " ++ e))

/-- The method `grab`: resolves the face of a family, fetches it through the cache
transport, validates the response and rasterizes the body. -/
def Args.grab {σ G Img : Type} (env : Env σ G Img) (args : Args) (family : String)
    (st : St σ) : Outcome ((Option Img × Option Err) × St σ) :=
  let st := st.call (.woff2 family)
  match env.WOFF2 family st.world with
  | (.error err, w) =>
    .returned ((none, some ("unable to retrieve woff2 font face: " ++ err)), st.setWorld w)
  | (.ok face, w) =>
    let st := st.setWorld w
    if face.Src = "" then
      .returned ((none, some "missing face src"), st)
    else
      let st := args.log ("retrieving: " ++ face.Src) st
      match env.NewRequest face.Src with
      | some err => .returned ((none, some ("unable to create http request: " ++ err)), st)
      | none =>
        let st := st.call (.httpDo face.Src)
        match env.Do face.Src st.world with
        | (.error err, w) =>
          .returned ((none, some ("unable to retrieve woff2: " ++ err)), st.setWorld w)
        | (.ok res, w) =>
          let st := st.setWorld w
          if res.StatusCode ≠ 200 ∨ res.ContentType ≠ "font/woff2" then
            .returned ((none, some ("bad woff2 data, status: " ++ toString res.StatusCode
              ++ ", content-type: " ++ env.quote res.ContentType)), st.call .bodyClose)
          else
            let st := st.call .readAll
            match res.Body with
            | .error err =>
              .returned ((none, some ("unable to read font: " ++ err)), st.call .bodyClose)
            | .ok buf =>
              let st := st.call (.rasterize buf)
              match args.rasterize env buf with
              | .returned r => .returned (r, st.call .bodyClose)
              | .panicked v => .panicked v

/-- The glob compilation loop of `showFonts`, from index `i` on. -/
def compileGlobs {σ G Img : Type} (env : Env σ G Img) : Nat → List String → Except Err (List G)
  | _, [] => .ok []
  | i, arg :: rest =>
    match env.Compile arg with
    | .error err =>
      .error ("bad arg " ++ env.quote arg ++ " (" ++ toString i ++ "): " ++ err)
    | .ok g =>
      match compileGlobs env (i + 1) rest with
      | .error err => .error err
      | .ok gs => .ok (g :: gs)

/-- The inner matching loop of `showFonts`: one pass over the families for the glob
`g`, appending every match to `fonts`. -/
def matchFamilies {σ G Img : Type} (env : Env σ G Img) (g : G) :
    List Webfont → List Webfont → List Webfont
  | [], fonts => fonts
  | f :: fs, fonts =>
    if env.Match g f.Family then matchFamilies env g fs (fonts ++ [f])
    else matchFamilies env g fs fonts

/-- The outer matching loop of `showFonts`: one pass over the globs. -/
def matchGlobs {σ G Img : Type} (env : Env σ G Img) (families : List Webfont) :
    List G → List Webfont → List Webfont
  | [], fonts => fonts
  | g :: gs, fonts => matchGlobs env families gs (matchFamilies env g families fonts)

/-- The `// match` step of `showFonts`: the selection `fonts`. -/
def selectFonts {σ G Img : Type} (env : Env σ G Img) (all : Bool) (globs : List G)
    (families : List Webfont) : List Webfont :=
  if all then families else matchGlobs env families globs []

/-- The header line written for a family. -/
def headerLine (f : Webfont) : String := f.Family ++ ":\n"

/-- The diagnostic line written for an error. -/
def errorLine (err : Err) : String := "error: " ++ err ++ "\n"

/-- The render loop of `showFonts` over the selection `fonts`. -/
def renderFonts {σ G Img : Type} (env : Env σ G Img) (args : Args) :
    List Webfont → St σ → Outcome (Option Err × St σ)
  | [], st => .returned (none, st)
  | f :: fs, st =>
    match args.grab env f.Family (st.write (headerLine f)) with
    | .panicked v => .panicked v
    | .returned ((_, some err), st) => renderFonts env args fs (st.write (errorLine err))
    | .returned ((img, none), st) =>
      match env.Encode img (st.call .encode).world with
      | ((written, some err), w) =>
        renderFonts env args fs ((((st.call .encode).setWorld w).writes written).write
          (errorLine err))
      | ((written, none), w) =>
        renderFonts env args fs (((st.call .encode).setWorld w).writes written)

/-- The function returned by `showFonts(w, args)`, applied to the command-line
arguments. -/
def showFonts {σ G Img : Type} (env : Env σ G Img) (args : Args) (cliargs : List String)
    (st : St σ) : Outcome (Option Err × St σ) :=
  if !env.Available then
    .returned (some env.ErrTermGraphicsNotAvailable, st)
  else
    match args.init env st with
    | (some err, _, st) => .returned (some err, st)
    | (none, args, st) =>
      match compileGlobs env 0 cliargs with
      | .error err => .returned (some err, st)
      | .ok globs =>
        match args.families env st with
        | (.error err, st) => .returned (some err, st)
        | (.ok families, st) =>
          renderFonts env args (selectFonts env args.All globs families) st

/-! ## Output blocks -/

/-- Whether a call is a face resolution, the first step of the fetch of a family. -/
def Call.isWoff2 : Call → Bool
  | .woff2 _ => true
  | _ => false

/-- The turn of one family `f` of the render loop, started in state `s`: the block `b`
that it writes and the state `t` that it leaves, decided by the outcome of the steps of
that family.  The header line is written first and `grab` (fetch, then rasterizer) runs
after it.
* `failed`: `grab` returns the error `err`; the block is the header line and the error
  line of `err`, and the encoder is not called;
* `encoded`: `grab` returns the image `img` and the encoder, called with `img`, writes
  `written` and returns nil; the block is the header line followed by `written`;
* `encodeFailed`: `grab` returns the image `img` and the encoder, called with `img`,
  writes `written` and returns the error `err`; the block is the header line, `written`
  and the error line of `err`. -/
inductive Turn {σ G Img : Type} (env : Env σ G Img) (args : Args) (f : Webfont) (s : St σ) :
    List String → St σ → Prop
  | failed (img : Option Img) (err : Err) (s1 : St σ) :
      args.grab env f.Family (s.write (headerLine f)) = .returned ((img, some err), s1) →
      Turn env args f s [headerLine f, errorLine err]
        ⟨s1.world, s.out ++ [headerLine f, errorLine err], s1.stderr, s1.calls⟩
  | encoded (img : Option Img) (s1 : St σ) (written : List String) (w : σ) :
      args.grab env f.Family (s.write (headerLine f)) = .returned ((img, none), s1) →
      env.Encode img s1.world = ((written, none), w) →
      Turn env args f s (headerLine f :: written)
        ⟨w, s.out ++ headerLine f :: written, s1.stderr, s1.calls ++ [.encode]⟩
  | encodeFailed (img : Option Img) (s1 : St σ) (written : List String) (err : Err) (w : σ) :
      args.grab env f.Family (s.write (headerLine f)) = .returned ((img, none), s1) →
      env.Encode img s1.world = ((written, some err), w) →
      Turn env args f s (headerLine f :: (written ++ [errorLine err]))
        ⟨w, s.out ++ headerLine f :: (written ++ [errorLine err]), s1.stderr,
          s1.calls ++ [.encode]⟩

/-- The turns of the families of a selection, one after the other in selection order:
the blocks written, one per family, and the state left by the last turn. -/
inductive Run {σ G Img : Type} (env : Env σ G Img) (args : Args) :
    List Webfont → St σ → List (List String) → St σ → Prop
  | nil (s : St σ) : Run env args [] s [] s
  | cons (f : Webfont) (fs : List Webfont) (s t u : St σ) (b : List String)
      (bs : List (List String)) :
      Turn env args f s b t → Run env args fs t bs u → Run env args (f :: fs) s (b :: bs) u

/-- The output block of one family as the specification describes it: the header line
followed by either the encoded image or an error line. -/
inductive ClaimedBlock {σ G Img : Type} (env : Env σ G Img) (f : Webfont) : List String → Prop
  | failed (err : Err) : ClaimedBlock env f [headerLine f, errorLine err]
  | encoded (img : Option Img) (w w2 : σ) (written : List String) :
      env.Encode img w = ((written, none), w2) → ClaimedBlock env f (headerLine f :: written)

/-! ## A concrete environment

A small instance of the collaborators, used to evaluate the program on concrete
inputs. -/

/-- Matching of a pattern made of literal characters and `*` (any run of characters). -/
def starMatch : List Char → List Char → Bool
  | [], cs => cs.isEmpty
  | '*' :: ps, cs => cs.tails.any (fun t => starMatch ps t)
  | _ :: _, [] => false
  | p :: ps, c :: cs => p == c && starMatch ps cs

/-- The world of the concrete environment: whether the cache directory can be
created, whether the shared context is done, whether the user cancels during the
next HTTP fetch, whether the terminal encoder breaks off after its first write. -/
structure World where
  cacheDirOk : Bool
  ctxDone : Bool
  cancelOnFetch : Bool
  encoderBroken : Bool
deriving DecidableEq, Repr

/-- The catalog served by the concrete environment. -/
def sampleCatalog : List Webfont :=
  [⟨"Roboto", "sans-serif"⟩, ⟨"Open Sans", "sans-serif"⟩, ⟨"Oswald", "sans-serif"⟩]

/-- The responses of the concrete font server: Roboto is served, Open Sans breaks
off while the body is read, anything else is not found. -/
def sampleResponse (url : String) : Response :=
  if url = "https://fonts.example/Roboto.woff2" then
    ⟨200, "font/woff2", .ok [119, 79, 70, 50]⟩
  else if url = "https://fonts.example/Open Sans.woff2" then
    ⟨200, "font/woff2", .error "unexpected EOF"⟩
  else
    ⟨404, "text/html", .ok []⟩

/-- The concrete environment.  Globs are patterns of literal characters and `*`, and
a pattern with a `[` does not compile; images are the list of pixel values. -/
def sampleEnv : Env World (List Char) (List Nat) where
  ctxDone := fun w => w.ctxDone
  Available := true
  ErrTermGraphicsNotAvailable := "terminal graphics not available"
  diskcacheNew := fun _ w =>
    if w.cacheDirOk then (none, w) else (some "cache directory not available", w)
  Compile := fun p =>
    if p.toList.contains '[' then .error "unexpected end of input" else .ok p.toList
  Match := fun g s => starMatch g s.toList
  quote := fun s => "\"" ++ s ++ "\""
  webfontsAvailable := fun _ w =>
    if w.ctxDone then (.error "context canceled", w) else (.ok sampleCatalog, w)
  WOFF2 := fun family w =>
    if w.ctxDone then (.error "context canceled", w)
    else (.ok ⟨"https://fonts.example/" ++ family ++ ".woff2"⟩, w)
  NewRequest := fun _ => none
  Do := fun url w =>
    if w.ctxDone then (.error "context canceled", w)
    else if w.cancelOnFetch then
      (.error "context canceled", { w with ctxDone := true, cancelOnFetch := false })
    else (.ok (sampleResponse url), w)
  Rasterize := fun buf size _ _ _ _ _ _ =>
    if buf.length < 4 then .panicked "runtime error: index out of range"
    else if size ≤ 0 then .returned (none, some "invalid font size")
    else .returned (some (buf.map UInt8.toNat), none)
  Encode := fun img w =>
    match img with
    | none => (([], some "nil image"), w)
    | some px =>
      if w.encoderBroken then ((["<image start>"], some "short write"), w)
      else ((["<image start>", toString px.length, "<image end>"], none), w)

/-- Command-line settings of the concrete runs: key given, defaults otherwise. -/
def sampleArgs : Args where
  Verbose := false
  Key := "k"
  All := false
  FontSize := 48
  FontStyle := 0
  FontVariant := 0
  FontFg := "black"
  FontBg := "white"
  FontDPI := 100
  FontMargin := 5
  logger := false

/-- A world in which everything works. -/
def sampleWorld : World := ⟨true, false, false, false⟩

/-- The start of a run in the given world: nothing written, nothing called. -/
def startIn (w : World) : St World := ⟨w, [], [], []⟩

/-! ## The selection -/

/-- One pass of the inner loop appends the families matched by `g`, in catalog order. -/
theorem matchFamilies_eq {σ G Img : Type} (env : Env σ G Img) (g : G) (families fonts : List Webfont) :
    matchFamilies env g families fonts
      = fonts ++ families.filter (fun f => env.Match g f.Family) := by
  induction families generalizing fonts with
  | nil => simp [matchFamilies]
  | cons f fs ih =>
    by_cases h : env.Match g f.Family = true
    · simp [matchFamilies, h, ih]
    · simp [matchFamilies, h, ih]

/-- The outer loop appends one run of matches per glob, in glob order. -/
theorem matchGlobs_eq {σ G Img : Type} (env : Env σ G Img) (families : List Webfont) (globs : List G)
    (fonts : List Webfont) :
    matchGlobs env families globs fonts
      = fonts ++ globs.flatMap (fun g => families.filter (fun f => env.Match g f.Family)) := by
  induction globs generalizing fonts with
  | nil => simp [matchGlobs]
  | cons g gs ih => simp [matchGlobs, ih, matchFamilies_eq, List.flatMap_cons]

/-- The selection without the all flag, in closed form. -/
theorem selectFonts_false_eq {σ G Img : Type} (env : Env σ G Img) (globs : List G)
    (families : List Webfont) :
    selectFonts env false globs families
      = globs.flatMap (fun g => families.filter (fun f => env.Match g f.Family)) := by
  simp [selectFonts, matchGlobs_eq]

/-- C4. Soundness and completeness of the pattern matcher: with the all flag unset, for
every catalog and every list of compiled globs (non-empty or not), a family is in the
selection if and only if it is in the catalog and its name matches at least one of the
globs. -/
theorem selectFonts_mem_iff {σ G Img : Type} (env : Env σ G Img) (globs : List G)
    (families : List Webfont) (f : Webfont) :
    f ∈ selectFonts env false globs families
      ↔ f ∈ families ∧ ∃ g ∈ globs, env.Match g f.Family = true := by
  rw [selectFonts_false_eq, List.mem_flatMap]
  constructor
  · rintro ⟨g, hg, hf⟩
    rw [List.mem_filter] at hf
    exact ⟨hf.1, g, hg, hf.2⟩
  · rintro ⟨hf, g, hg, hm⟩
    exact ⟨g, hg, List.mem_filter.mpr ⟨hf, hm⟩⟩

/-- C5, as stated, fails: in the concrete environment the globs `O*` and `*s*` both
match Oswald, the catalog has distinct families, and Oswald is selected twice. -/
theorem selectFonts_duplicates :
    sampleCatalog.Nodup ∧
    selectFonts sampleEnv false ["O*".toList, "*s*".toList] sampleCatalog
      = [⟨"Open Sans", "sans-serif"⟩, ⟨"Oswald", "sans-serif"⟩,
         ⟨"Open Sans", "sans-serif"⟩, ⟨"Oswald", "sans-serif"⟩] ∧
    (selectFonts sampleEnv false ["O*".toList, "*s*".toList] sampleCatalog).count
      ⟨"Oswald", "sans-serif"⟩ = 2 := by
  refine ⟨by decide, by decide, by decide⟩

/-- C5, amended. With the all flag unset, for every catalog of distinct families and
every list of compiled globs, a catalog family appears in the selection once for every
glob of the list that matches its name: its number of occurrences is the number of
matching globs (so it appears at most once exactly when at most one glob matches it). -/
theorem selectFonts_count {σ G Img : Type} (env : Env σ G Img) (globs : List G)
    (families : List Webfont) (hnd : families.Nodup) (f : Webfont) (hf : f ∈ families) :
    (selectFonts env false globs families).count f
      = (globs.filter (fun g => env.Match g f.Family)).length := by
  rw [selectFonts_false_eq]
  induction globs with
  | nil => simp
  | cons g gs ih =>
    rw [List.flatMap_cons, List.count_append, ih]
    by_cases h : env.Match g f.Family = true
    · have h1 : (families.filter (fun x => env.Match g x.Family)).count f = 1 := by
        rw [List.count_filter (by simpa using h)]
        exact List.count_eq_one_of_mem hnd hf
      simp [h, h1, Nat.add_comm]
    · have h0 : (families.filter (fun x => env.Match g x.Family)).count f = 0 := by
        rw [List.count_eq_zero]
        intro hmem
        exact h (by simpa using (List.mem_filter.mp hmem).2)
      simp [h, h0]

/-- C5 amended, at a concrete input: Oswald is matched by both `O*` and `*s*`. -/
theorem selectFonts_count_witness :
    sampleCatalog.Nodup ∧ (⟨"Oswald", "sans-serif"⟩ : Webfont) ∈ sampleCatalog ∧
    (selectFonts sampleEnv false ["O*".toList, "*s*".toList] sampleCatalog).count
        ⟨"Oswald", "sans-serif"⟩
      = (["O*".toList, "*s*".toList].filter (fun g => sampleEnv.Match g "Oswald")).length :=
  ⟨by decide, by decide,
    selectFonts_count sampleEnv ["O*".toList, "*s*".toList] sampleCatalog (by decide)
      ⟨"Oswald", "sans-serif"⟩ (by decide)⟩

/-- C6, as stated, fails: with the globs `O*` and `R*`, in that order, the selection
lists Open Sans and Oswald before Roboto, which is not a subsequence of the catalog
(Roboto, Open Sans, Oswald). -/
theorem selectFonts_not_catalog_order :
    selectFonts sampleEnv false ["O*".toList, "R*".toList] sampleCatalog
      = [⟨"Open Sans", "sans-serif"⟩, ⟨"Oswald", "sans-serif"⟩, ⟨"Roboto", "sans-serif"⟩] ∧
    ¬ (selectFonts sampleEnv false ["O*".toList, "R*".toList] sampleCatalog).Sublist
        sampleCatalog := by
  refine ⟨by decide, by decide⟩

/-- C6, amended. With the all flag unset, the selection is ordered by glob first, in the
order of the glob list, and in catalog order within the matches of one glob: it is the
concatenation, glob by glob, of the subsequence of the catalog matched by that glob.
For a single glob it is a subsequence of the catalog, and the catalog (Roboto, Open Sans,
Oswald) with the single glob `O*` gives (Open Sans, Oswald). -/
theorem selectFonts_order {σ G Img : Type} (env : Env σ G Img) (globs : List G)
    (families : List Webfont) :
    selectFonts env false globs families
        = (globs.map (fun g => families.filter (fun f => env.Match g f.Family))).flatten ∧
    (∀ g ∈ globs, (families.filter (fun f => env.Match g f.Family)).Sublist families) ∧
    (∀ g : G, (selectFonts env false [g] families).Sublist families) ∧
    selectFonts sampleEnv false ["O*".toList] sampleCatalog
        = [⟨"Open Sans", "sans-serif"⟩, ⟨"Oswald", "sans-serif"⟩] := by
  refine ⟨?_, ?_, ?_, by decide⟩
  · rw [selectFonts_false_eq, List.flatMap_def]
  · intro g _
    exact List.filter_sublist _
  · intro g
    rw [selectFonts_false_eq]
    simp only [List.flatMap_cons, List.flatMap_nil, List.append_nil]
    exact List.filter_sublist _

/-- C7. With the all flag set, for every catalog and every list of compiled globs (also
globs that match nothing, also the empty list), the selection is the full catalog,
element for element in catalog order. -/
theorem selectFonts_all {σ G Img : Type} (env : Env σ G Img) (globs : List G)
    (families : List Webfont) :
    selectFonts env true globs families = families := by
  simp [selectFonts]

/-! ## The rasterizer adapter and the fetcher -/

/-- Logging leaves the world alone. -/
@[simp] theorem Args.log_world {σ : Type} (args : Args) (msg : String) (st : St σ) :
    (args.log msg st).world = st.world := by
  unfold Args.log
  split <;> rfl

/-- Logging writes nothing to the sink. -/
@[simp] theorem Args.log_out {σ : Type} (args : Args) (msg : String) (st : St σ) :
    (args.log msg st).out = st.out := by
  unfold Args.log
  split <;> rfl

/-- Logging calls no collaborator. -/
@[simp] theorem Args.log_calls {σ : Type} (args : Args) (msg : String) (st : St σ) :
    (args.log msg st).calls = st.calls := by
  unfold Args.log
  split <;> rfl

/-- The adapter always returns. -/
theorem rasterize_returns {σ G Img : Type} (env : Env σ G Img) (args : Args) (buf : Bytes) :
    ∃ r, args.rasterize env buf = .returned r := by
  unfold Args.rasterize
  split
  · exact ⟨_, rfl⟩
  · exact ⟨_, rfl⟩

/-- C2. Fault containment of the rasterizer adapter: for every byte slice, `rasterize`
never panics; when the engine panics with a value, it returns no image and the error
"caught panic: " followed by that value; when the engine returns, it returns the image
and the error of the engine unchanged. -/
theorem rasterize_contains_panic {σ G Img : Type} (env : Env σ G Img) (args : Args) (buf : Bytes) :
    (∀ v, args.rasterize env buf ≠ .panicked v) ∧
    (∀ e, env.Rasterize buf (uintToInt args.FontSize) args.FontStyle args.FontVariant
          args.FontFg args.FontBg args.FontDPI args.FontMargin = .panicked e →
      args.rasterize env buf = .returned (none, some ("caught panic: " ++ e))) ∧
    (∀ img err, env.Rasterize buf (uintToInt args.FontSize) args.FontStyle args.FontVariant
          args.FontFg args.FontBg args.FontDPI args.FontMargin = .returned (img, err) →
      args.rasterize env buf = .returned (img, err)) := by
  refine ⟨?_, ?_, ?_⟩
  · intro v hv
    obtain ⟨r, hr⟩ := rasterize_returns env args buf
    rw [hr] at hv
    cases hv
  · intro e he
    simp [Args.rasterize, he]
  · intro img err he
    simp [Args.rasterize, he]

/-- C2, at concrete inputs: a two-byte slice makes the concrete engine panic, and the
adapter returns the panic as an error; a four-byte slice is rasterized. -/
theorem rasterize_contains_panic_witness :
    (sampleEnv.Rasterize [0, 1] (uintToInt sampleArgs.FontSize) sampleArgs.FontStyle
        sampleArgs.FontVariant sampleArgs.FontFg sampleArgs.FontBg sampleArgs.FontDPI
        sampleArgs.FontMargin = .panicked "runtime error: index out of range" ∧
      sampleArgs.rasterize sampleEnv [0, 1]
        = .returned (none, some ("caught panic: " ++ "runtime error: index out of range"))) ∧
    (sampleEnv.Rasterize [119, 79, 70, 50] (uintToInt sampleArgs.FontSize) sampleArgs.FontStyle
        sampleArgs.FontVariant sampleArgs.FontFg sampleArgs.FontBg sampleArgs.FontDPI
        sampleArgs.FontMargin = .returned (some [119, 79, 70, 50], none) ∧
      sampleArgs.rasterize sampleEnv [119, 79, 70, 50]
        = .returned (some [119, 79, 70, 50], none)) :=
  ⟨⟨by decide, (rasterize_contains_panic sampleEnv sampleArgs [0, 1]).2.1 _ (by decide)⟩,
   ⟨by decide, (rasterize_contains_panic sampleEnv sampleArgs [119, 79, 70, 50]).2.2 _ _
      (by decide)⟩⟩

/-- C3, as stated, fails: in the concrete environment the response for Open Sans has
status 200 and content type font/woff2, yet reading its body fails, so nothing is
handed to the rasterizer and `grab` returns the read error. -/
theorem grab_valid_response_not_rasterized :
    sampleEnv.Do "https://fonts.example/Open Sans.woff2" sampleWorld
      = (.ok (sampleResponse "https://fonts.example/Open Sans.woff2"), sampleWorld) ∧
    (sampleResponse "https://fonts.example/Open Sans.woff2").StatusCode = 200 ∧
    (sampleResponse "https://fonts.example/Open Sans.woff2").ContentType = "font/woff2" ∧
    sampleArgs.grab sampleEnv "Open Sans" (startIn sampleWorld)
      = .returned ((none, some "unable to read font: unexpected EOF"),
          ⟨sampleWorld, [], [],
            [.woff2 "Open Sans", .httpDo "https://fonts.example/Open Sans.woff2", .readAll,
              .bodyClose]⟩) := by
  refine ⟨rfl, by decide, by decide, by decide⟩

/-- C3, amended. For every HTTP response obtained by `grab`, the body is read if and
only if the status code is 200 and the content type is "font/woff2", and it is handed to
the rasterizer if and only if, moreover, the read succeeds: `grab` then returns what
`rasterize` returns for exactly these bytes, and a failed read gives the error "unable
to read font: ..." with no image.  In every other case `grab` returns an error carrying
the observed status code and content type and no image, and neither reads the body nor
calls the rasterizer. -/
theorem grab_validates {σ G Img : Type} (env : Env σ G Img) (args : Args) (family : String)
    (st : St σ) (face : Face) (w w2 : σ) (res : Response)
    (hface : env.WOFF2 family st.world = (.ok face, w)) (hsrc : face.Src ≠ "")
    (hreq : env.NewRequest face.Src = none) (hdo : env.Do face.Src w = (.ok res, w2)) :
    ∃ r st2 rest, args.grab env family st = .returned (r, st2) ∧
      st2.calls = st.calls ++ [.woff2 family, .httpDo face.Src] ++ rest ∧
      st2.out = st.out ∧
      (Call.readAll ∈ rest ↔ res.StatusCode = 200 ∧ res.ContentType = "font/woff2") ∧
      (∀ buf, Call.rasterize buf ∈ rest ↔
        (res.StatusCode = 200 ∧ res.ContentType = "font/woff2") ∧ res.Body = .ok buf) ∧
      (∀ buf, (res.StatusCode = 200 ∧ res.ContentType = "font/woff2") → res.Body = .ok buf →
        args.rasterize env buf = .returned r) ∧
      (∀ e, (res.StatusCode = 200 ∧ res.ContentType = "font/woff2") → res.Body = .error e →
        r = (none, some ("unable to read font: " ++ e))) ∧
      (¬ (res.StatusCode = 200 ∧ res.ContentType = "font/woff2") →
        r = (none, some ("bad woff2 data, status: " ++ toString res.StatusCode
              ++ ", content-type: " ++ env.quote res.ContentType))) := by
  have hw : env.WOFF2 family (st.call (.woff2 family)).world = (.ok face, w) := hface
  have hd : env.Do face.Src
      ((args.log ("retrieving: " ++ face.Src) ((st.call (.woff2 family)).setWorld w)).call
        (.httpDo face.Src)).world = (.ok res, w2) := by
    simpa [St.call, St.setWorld] using hdo
  by_cases hv : res.StatusCode = 200 ∧ res.ContentType = "font/woff2"
  · have hv2 : ¬ (res.StatusCode ≠ 200 ∨ res.ContentType ≠ "font/woff2") := by
      rintro (h | h)
      · exact h hv.1
      · exact h hv.2
    cases hb : res.Body with
    | error e =>
      have hg : args.grab env family st = .returned ((none, some ("unable to read font: " ++ e)),
          (((((args.log ("retrieving: " ++ face.Src) ((st.call (.woff2 family)).setWorld w)).call
            (.httpDo face.Src)).setWorld w2).call .readAll).call .bodyClose)) := by
        simp only [Args.grab, hw, hd, hsrc, hreq, hv2, hb, if_false]
      refine ⟨_, _, [.readAll, .bodyClose], hg, ?_, ?_, ?_, ?_, ?_, ?_, ?_⟩
      · simp [St.call, St.setWorld]
      · simp [St.call, St.setWorld]
      · simp [hv]
      · intro buf
        simp
      · intro buf _ h
        cases h
      · intro e2 _ h
        cases h
        rfl
      · intro h
        exact absurd hv h
    | ok buf =>
      obtain ⟨r, hr⟩ := rasterize_returns env args buf
      have hg : args.grab env family st = .returned (r,
          ((((((args.log ("retrieving: " ++ face.Src) ((st.call (.woff2 family)).setWorld w)).call
            (.httpDo face.Src)).setWorld w2).call .readAll).call (.rasterize buf)).call
              .bodyClose)) := by
        simp only [Args.grab, hw, hd, hsrc, hreq, hv2, hb, hr, if_false]
      refine ⟨_, _, [.readAll, .rasterize buf, .bodyClose], hg, ?_, ?_, ?_, ?_, ?_, ?_, ?_⟩
      · simp [St.call, St.setWorld]
      · simp [St.call, St.setWorld]
      · simp [hv]
      · intro buf2
        simp [hv, eq_comm]
      · intro buf2 _ h
        cases h
        exact hr
      · intro e2 _ h
        cases h
      · intro h
        exact absurd hv h
  · have hv2 : res.StatusCode ≠ 200 ∨ res.ContentType ≠ "font/woff2" := by
      by_cases h1 : res.StatusCode = 200
      · right
        intro h2
        exact hv ⟨h1, h2⟩
      · left
        exact h1
    have hg : args.grab env family st = .returned
        ((none, some ("bad woff2 data, status: " ++ toString res.StatusCode
              ++ ", content-type: " ++ env.quote res.ContentType)),
          ((((args.log ("retrieving: " ++ face.Src) ((st.call (.woff2 family)).setWorld w)).call
            (.httpDo face.Src)).setWorld w2).call .bodyClose)) := by
      simp only [Args.grab, hw, hd, hsrc, hreq, hv2, if_true, if_false]
    refine ⟨_, _, [.bodyClose], hg, ?_, ?_, ?_, ?_, ?_, ?_, ?_⟩
    · simp [St.call, St.setWorld]
    · simp [St.call, St.setWorld]
    · simp [hv]
    · intro buf
      simp [hv]
    · intro buf h
      exact absurd h hv
    · intro e h
      exact absurd h hv
    · intro _
      rfl

/-- C3 amended, at a concrete input: the concrete server answers 404 with content type
text/html for Oswald. -/
theorem grab_validates_witness :
    ∃ r st2 rest, sampleArgs.grab sampleEnv "Oswald" (startIn sampleWorld) = .returned (r, st2) ∧
      st2.calls = (startIn sampleWorld).calls
        ++ [.woff2 "Oswald", .httpDo "https://fonts.example/Oswald.woff2"] ++ rest ∧
      st2.out = (startIn sampleWorld).out ∧
      (Call.readAll ∈ rest ↔ ((404 : Int) = 200 ∧ "text/html" = "font/woff2")) ∧
      (∀ buf, Call.rasterize buf ∈ rest ↔
        ((404 : Int) = 200 ∧ "text/html" = "font/woff2") ∧ (Except.ok [] : Except Err Bytes) = .ok buf) ∧
      (∀ buf, ((404 : Int) = 200 ∧ "text/html" = "font/woff2") →
        (Except.ok [] : Except Err Bytes) = .ok buf →
        sampleArgs.rasterize sampleEnv buf = .returned r) ∧
      (∀ e, ((404 : Int) = 200 ∧ "text/html" = "font/woff2") →
        (Except.ok [] : Except Err Bytes) = .error e →
        r = (none, some ("unable to read font: " ++ e))) ∧
      (¬ ((404 : Int) = 200 ∧ "text/html" = "font/woff2") →
        r = (none, some ("bad woff2 data, status: " ++ toString (404 : Int)
              ++ ", content-type: " ++ sampleEnv.quote "text/html"))) :=
  grab_validates sampleEnv sampleArgs "Oswald" (startIn sampleWorld)
    ⟨"https://fonts.example/Oswald.woff2"⟩ sampleWorld sampleWorld ⟨404, "text/html", .ok []⟩
    rfl (by decide) rfl rfl

/-! ## Pre-flight: glob compilation -/

/-- The compilation loop stops at the first pattern that does not compile and reports
it with its index. -/
theorem compileGlobs_first_bad {σ G Img : Type} (env : Env σ G Img) (i : Nat)
    (pre : List String) (bad : String) (post : List String) (e : Err)
    (hpre : ∀ p ∈ pre, ∃ g, env.Compile p = .ok g) (hbad : env.Compile bad = .error e) :
    compileGlobs env i (pre ++ bad :: post)
      = .error ("bad arg " ++ env.quote bad ++ " (" ++ toString (i + pre.length) ++ "): " ++ e) := by
  induction pre generalizing i with
  | nil => simp [compileGlobs, hbad]
  | cons p ps ih =>
    obtain ⟨g, hg⟩ := hpre p (List.mem_cons_self _ _)
    have hps : ∀ q ∈ ps, ∃ g, env.Compile q = .ok g :=
      fun q hq => hpre q (List.mem_cons_of_mem _ hq)
    have hlen : i + 1 + ps.length = i + (p :: ps).length := by
      simp only [List.length_cons]
      omega
    have hrec := ih (i + 1) hps
    rw [hlen] at hrec
    rw [List.cons_append, compileGlobs]
    simp only [hg, hrec]

/-- The method `init` changes nothing but the logger. -/
theorem init_All {σ G Img : Type} (env : Env σ G Img) (args : Args) (st : St σ) :
    (args.init env st).2.1.All = args.All := by
  unfold Args.init
  split
  · rfl
  · split <;> (simp only []; split <;> rfl)

/-- C8, as stated, fails: the terminal is available, a key is supplied and the pattern
`[` does not compile, but the cache directory cannot be created, and `showFonts` returns
the error of the cache, which names no pattern. -/
theorem showFonts_cache_error_first :
    sampleEnv.Available = true ∧ sampleArgs.Key ≠ "" ∧
    sampleEnv.Compile "[" = .error "unexpected end of input" ∧
    showFonts sampleEnv sampleArgs ["["] (startIn ⟨false, false, false, false⟩)
      = .returned (some "cache directory not available",
          ⟨⟨false, false, false, false⟩, [], [], [.diskcacheNew false]⟩) := by
  refine ⟨rfl, by decide, rfl, by decide⟩

/-- C8, amended. With the terminal available, a key supplied and the cache transport
created, if a pattern string fails to compile as a glob, `showFonts` returns the error
"bad arg <quoted pattern> (<index>): <cause>" for the first pattern that fails, with its
index in the argument list; it has then written nothing and called neither the catalog
nor the fetcher (the only collaborator call is the creation of the cache). -/
theorem showFonts_bad_pattern {σ G Img : Type} (env : Env σ G Img) (args : Args) (st : St σ)
    (w : σ) (pre : List String) (bad : String) (post : List String) (e : Err)
    (havail : env.Available = true) (hkey : args.Key ≠ "")
    (hcache : env.diskcacheNew args.Verbose st.world = (none, w))
    (hpre : ∀ p ∈ pre, ∃ g, env.Compile p = .ok g) (hbad : env.Compile bad = .error e) :
    ∃ st2, showFonts env args (pre ++ bad :: post) st
        = .returned (some ("bad arg " ++ env.quote bad ++ " (" ++ toString pre.length ++ "): " ++ e),
            st2) ∧
      st2.out = st.out ∧ st2.calls = st.calls ++ [.diskcacheNew args.Verbose] := by
  have hc := compileGlobs_first_bad env 0 pre bad post e hpre hbad
  rw [Nat.zero_add] at hc
  have hb : Args.buildCache env (if args.Verbose = true then { args with logger := true } else args) st
      = (none, (st.call (.diskcacheNew args.Verbose)).setWorld w) := by
    have hV : (if args.Verbose = true then { args with logger := true } else args).Verbose
        = args.Verbose := by
      split <;> rfl
    simp only [Args.buildCache, hV, St.call, hcache]
  refine ⟨(st.call (.diskcacheNew args.Verbose)).setWorld w, ?_, rfl, rfl⟩
  simp only [showFonts, havail, Args.init, hkey, hb, hc, Bool.not_true, if_false]
  rfl

/-- C8 amended, at a concrete input: the arguments `O*`, `[`, `R*` in a world where the
cache can be created. -/
theorem showFonts_bad_pattern_witness :
    sampleEnv.Available = true ∧ sampleArgs.Key ≠ "" ∧
    sampleEnv.diskcacheNew sampleArgs.Verbose (startIn sampleWorld).world = (none, sampleWorld) ∧
    (∀ p ∈ ["O*"], ∃ g, sampleEnv.Compile p = .ok g) ∧
    sampleEnv.Compile "[" = .error "unexpected end of input" ∧
    ∃ st2, showFonts sampleEnv sampleArgs (["O*"] ++ "[" :: ["R*"]) (startIn sampleWorld)
        = .returned (some ("bad arg " ++ sampleEnv.quote "[" ++ " (" ++ toString ["O*"].length
            ++ "): " ++ "unexpected end of input"), st2) ∧
      st2.out = (startIn sampleWorld).out ∧
      st2.calls = (startIn sampleWorld).calls ++ [.diskcacheNew sampleArgs.Verbose] :=
  ⟨rfl, by decide, rfl, fun _ hp => by rw [List.mem_singleton.mp hp]; exact ⟨_, rfl⟩, rfl,
    showFonts_bad_pattern sampleEnv sampleArgs (startIn sampleWorld) sampleWorld ["O*"] "["
      ["R*"] "unexpected end of input" rfl (by decide) rfl
      (fun _ hp => by rw [List.mem_singleton.mp hp]; exact ⟨_, rfl⟩) rfl⟩

/-- C10, as stated, fails: with the all flag set, the pattern `[` still makes
`showFonts` fail before the catalog is retrieved, whereas without arguments the whole
catalog is rendered. -/
theorem showFonts_all_bad_pattern :
    showFonts sampleEnv { sampleArgs with All := true } ["["] (startIn sampleWorld)
      = .returned (some "bad arg \"[\" (0): unexpected end of input",
          ⟨sampleWorld, [], [], [.diskcacheNew false]⟩) ∧
    showFonts sampleEnv { sampleArgs with All := true } [] (startIn sampleWorld)
      ≠ showFonts sampleEnv { sampleArgs with All := true } ["["] (startIn sampleWorld) := by
  refine ⟨by decide, by decide⟩

/-- C10, amended. With the all flag set, for every list of pattern strings that all
compile as globs, the result and the output of `showFonts` do not depend on the pattern
strings: they are those of the empty argument list, for which the whole catalog is
rendered.  A pattern string that does not compile makes `showFonts` fail with the error
of the compilation loop also when the all flag is set. -/
theorem showFonts_all_compiled {σ G Img : Type} (env : Env σ G Img) (args : Args)
    (cliargs : List String) (st : St σ) (hall : args.All = true) :
    (∀ gs, compileGlobs env 0 cliargs = .ok gs →
      showFonts env args cliargs st = showFonts env args [] st) ∧
    (∀ e args2 st2, compileGlobs env 0 cliargs = .error e → env.Available = true →
      args.init env st = (none, args2, st2) →
      showFonts env args cliargs st = .returned (some e, st2)) := by
  constructor
  · intro gs hgs
    have hA := init_All env args st
    unfold showFonts
    split
    · rfl
    · cases hinit : args.init env st with
      | mk err rest =>
        cases rest with
        | mk args2 st2 =>
          rw [hinit] at hA
          have hA2 : args2.All = true := by
            rw [← hall]
            exact hA
          cases err with
          | some e => rfl
          | none =>
            simp only [hgs, compileGlobs, hA2, selectFonts, if_true]
  · intro e args2 st2 he hav hinit
    simp only [showFonts, hav, hinit, he, Bool.not_true, if_false]
    rfl

/-- C10 amended, at a concrete input: the all flag with the arguments `O*` and `R*`. -/
theorem showFonts_all_compiled_witness :
    ({ sampleArgs with All := true } : Args).All = true ∧
    compileGlobs sampleEnv 0 ["O*", "R*"] = .ok ["O*".toList, "R*".toList] ∧
    showFonts sampleEnv { sampleArgs with All := true } ["O*", "R*"] (startIn sampleWorld)
      = showFonts sampleEnv { sampleArgs with All := true } [] (startIn sampleWorld) :=
  ⟨rfl, rfl,
    (showFonts_all_compiled sampleEnv { sampleArgs with All := true } ["O*", "R*"]
      (startIn sampleWorld) rfl).1 ["O*".toList, "R*".toList] rfl⟩

/-! ## The render loop -/

/-- The fetcher always returns; it writes nothing to the sink, and it starts with one
face resolution and makes no other. -/
theorem grab_returns {σ G Img : Type} (env : Env σ G Img) (args : Args) (family : String)
    (st : St σ) :
    ∃ r st2 cs, args.grab env family st = .returned (r, st2) ∧ st2.out = st.out ∧
      st2.calls = st.calls ++ Call.woff2 family :: cs ∧ cs.filter Call.isWoff2 = [] := by
  cases hw : env.WOFF2 family (st.call (.woff2 family)).world with
  | mk rf w =>
    cases rf with
    | error err =>
      simp only [Args.grab, hw]
      exact ⟨_, _, [], rfl, rfl, rfl, rfl⟩
    | ok face =>
      by_cases hsrc : face.Src = ""
      · simp only [Args.grab, hw, hsrc, if_true]
        exact ⟨_, _, [], rfl, rfl, rfl, rfl⟩
      · cases hreq : env.NewRequest face.Src with
        | some err =>
          simp only [Args.grab, hw, hsrc, hreq, if_false]
          exact ⟨_, _, [], rfl, by simp [St.call, St.setWorld], by simp [St.call, St.setWorld],
            rfl⟩
        | none =>
          cases hd : env.Do face.Src ((args.log ("retrieving: " ++ face.Src)
              ((st.call (.woff2 family)).setWorld w)).call (.httpDo face.Src)).world with
          | mk rd w2 =>
            cases rd with
            | error err =>
              simp only [Args.grab, hw, hsrc, hreq, hd, if_false]
              exact ⟨_, _, [.httpDo face.Src], rfl, by simp [St.call, St.setWorld],
                by simp [St.call, St.setWorld], rfl⟩
            | ok res =>
              by_cases hv : res.StatusCode ≠ 200 ∨ res.ContentType ≠ "font/woff2"
              · simp only [Args.grab, hw, hsrc, hreq, hd, hv, if_true, if_false]
                exact ⟨_, _, [.httpDo face.Src, .bodyClose], rfl, by simp [St.call, St.setWorld],
                  by simp [St.call, St.setWorld], rfl⟩
              · cases hb : res.Body with
                | error err =>
                  simp only [Args.grab, hw, hsrc, hreq, hd, hv, hb, if_false]
                  exact ⟨_, _, [.httpDo face.Src, .readAll, .bodyClose], rfl,
                    by simp [St.call, St.setWorld], by simp [St.call, St.setWorld], rfl⟩
                | ok buf =>
                  obtain ⟨r, hr⟩ := rasterize_returns env args buf
                  simp only [Args.grab, hw, hsrc, hreq, hd, hv, hb, hr, if_false]
                  exact ⟨_, _, [.httpDo face.Src, .readAll, .rasterize buf, .bodyClose], rfl,
                    by simp [St.call, St.setWorld], by simp [St.call, St.setWorld], rfl⟩

/-- One turn of the render loop is the turn of the family: it appends the block of the
family, resolves its face once, and goes on with the rest of the selection. -/
theorem renderFonts_cons {σ G Img : Type} (env : Env σ G Img) (args : Args) (f : Webfont)
    (st : St σ) :
    ∃ b mid, Turn env args f st b mid ∧ mid.out = st.out ++ b ∧
      mid.calls.filter Call.isWoff2 = st.calls.filter Call.isWoff2 ++ [.woff2 f.Family] ∧
      ∀ fs, renderFonts env args (f :: fs) st = renderFonts env args fs mid := by
  obtain ⟨r, st1, cs, hg, hout, hcalls, hcs⟩ :=
    grab_returns env args f.Family (st.write (headerLine f))
  have hout1 : st1.out = st.out ++ [headerLine f] := by
    rw [hout]
    rfl
  have hcalls1 : st1.calls.filter Call.isWoff2
      = st.calls.filter Call.isWoff2 ++ [.woff2 f.Family] := by
    rw [hcalls]
    simp [St.write, List.filter_cons, Call.isWoff2, hcs]
  obtain ⟨img, err⟩ := r
  cases err with
  | some e =>
    refine ⟨_, _, Turn.failed img e st1 hg, rfl, hcalls1, ?_⟩
    intro fs
    have hs : st1.write (errorLine e)
        = ⟨st1.world, st.out ++ [headerLine f, errorLine e], st1.stderr, st1.calls⟩ := by
      simp [St.write, hout1]
    simp only [renderFonts, hg, hs]
  | none =>
    cases he : env.Encode img st1.world with
    | mk we w =>
      obtain ⟨written, eerr⟩ := we
      have he2 : env.Encode img (st1.call .encode).world = ((written, eerr), w) := he
      cases eerr with
      | some e =>
        refine ⟨_, _, Turn.encodeFailed img st1 written e w hg he, rfl, ?_, ?_⟩
        · simp [hcalls1, List.filter_append, Call.isWoff2]
        · intro fs
          have hs : (((st1.call .encode).setWorld w).writes written).write (errorLine e)
              = ⟨w, st.out ++ headerLine f :: (written ++ [errorLine e]), st1.stderr,
                  st1.calls ++ [.encode]⟩ := by
            simp [St.write, St.writes, St.call, St.setWorld, hout1]
          simp only [renderFonts, hg, he2, hs]
      | none =>
        refine ⟨_, _, Turn.encoded img st1 written w hg he, rfl, ?_, ?_⟩
        · simp [hcalls1, List.filter_append, Call.isWoff2]
        · intro fs
          have hs : ((st1.call .encode).setWorld w).writes written
              = ⟨w, st.out ++ headerLine f :: written, st1.stderr, st1.calls ++ [.encode]⟩ := by
            simp [St.writes, St.call, St.setWorld, hout1]
          simp only [renderFonts, hg, he2, hs]

/-- The render loop always returns nil; it runs the turns of the selected families in
selection order, appends their blocks, and resolves the face of each selected family
once, in that order. -/
theorem renderFonts_spec {σ G Img : Type} (env : Env σ G Img) (args : Args)
    (fonts : List Webfont) (st : St σ) :
    ∃ blocks fin, renderFonts env args fonts st = .returned (none, fin) ∧
      Run env args fonts st blocks fin ∧ fin.out = st.out ++ blocks.flatten ∧
      fin.calls.filter Call.isWoff2
        = st.calls.filter Call.isWoff2 ++ fonts.map (fun f => Call.woff2 f.Family) := by
  induction fonts generalizing st with
  | nil => exact ⟨[], st, rfl, Run.nil st, by simp, by simp⟩
  | cons f fs ih =>
    obtain ⟨b, mid, hb, hout, hcalls, hstep⟩ := renderFonts_cons env args f st
    obtain ⟨blocks, fin, hr, hrun, hfout, hfcalls⟩ := ih mid
    refine ⟨b :: blocks, fin, ?_, Run.cons f fs st mid fin b blocks hb hrun, ?_, ?_⟩
    · rw [hstep fs, hr]
    · rw [hfout, hout]
      simp
    · rw [hfcalls, hcalls]
      simp

/-- The turn of a family is determined by the outcome of its steps: a state and a family
have one block and one next state. -/
theorem Turn_unique {σ G Img : Type} (env : Env σ G Img) (args : Args) (f : Webfont)
    (s : St σ) (b1 b2 : List String) (t1 t2 : St σ)
    (h1 : Turn env args f s b1 t1) (h2 : Turn env args f s b2 t2) : b1 = b2 ∧ t1 = t2 := by
  cases h1 with
  | failed img err s1 hg =>
    cases h2 with
    | failed img2 err2 s2 hg2 =>
      rw [hg] at hg2
      cases hg2
      exact ⟨rfl, rfl⟩
    | encoded img2 s2 written2 w2 hg2 he2 =>
      rw [hg] at hg2
      cases hg2
    | encodeFailed img2 s2 written2 err2 w2 hg2 he2 =>
      rw [hg] at hg2
      cases hg2
  | encoded img s1 written w hg he =>
    cases h2 with
    | failed img2 err2 s2 hg2 =>
      rw [hg] at hg2
      cases hg2
    | encoded img2 s2 written2 w2 hg2 he2 =>
      rw [hg] at hg2
      cases hg2
      rw [he] at he2
      cases he2
      exact ⟨rfl, rfl⟩
    | encodeFailed img2 s2 written2 err2 w2 hg2 he2 =>
      rw [hg] at hg2
      cases hg2
      rw [he] at he2
      cases he2
  | encodeFailed img s1 written err w hg he =>
    cases h2 with
    | failed img2 err2 s2 hg2 =>
      rw [hg] at hg2
      cases hg2
    | encoded img2 s2 written2 w2 hg2 he2 =>
      rw [hg] at hg2
      cases hg2
      rw [he] at he2
      cases he2
    | encodeFailed img2 s2 written2 err2 w2 hg2 he2 =>
      rw [hg] at hg2
      cases hg2
      rw [he] at he2
      cases he2
      exact ⟨rfl, rfl⟩

/-- The blocks and the final state of a run are determined by the selection and the
state in which it starts. -/
theorem Run_unique {σ G Img : Type} (env : Env σ G Img) (args : Args) (fonts : List Webfont)
    (s : St σ) (bs1 bs2 : List (List String)) (u1 u2 : St σ)
    (h1 : Run env args fonts s bs1 u1) (h2 : Run env args fonts s bs2 u2) :
    bs1 = bs2 ∧ u1 = u2 := by
  induction h1 generalizing bs2 u2 with
  | nil s =>
    cases h2
    exact ⟨rfl, rfl⟩
  | cons f fs s t u b bs ht _ ih =>
    cases h2 with
    | cons _ _ _ t2 _ b2 bs2 ht2 hr2 =>
      obtain ⟨hb, hteq⟩ := Turn_unique env args f s b b2 t t2 ht ht2
      subst hb
      subst hteq
      obtain ⟨hbs, hu⟩ := ih bs2 u2 hr2
      exact ⟨by rw [hbs], hu⟩

/-- A run writes one block per family. -/
theorem Run_length {σ G Img : Type} (env : Env σ G Img) (args : Args) (fonts : List Webfont)
    (s : St σ) (blocks : List (List String)) (u : St σ) (h : Run env args fonts s blocks u) :
    blocks.length = fonts.length := by
  induction h with
  | nil s => rfl
  | cons f fs s t u b bs _ _ ih => simp [ih]

/-- Once the shared context is done and the face resolution honours it by returning an
error, the render loop writes, for every family, the header line and the error line of
that error, calls nothing but the face resolution, and returns nil. -/
theorem renderFonts_cancelled {σ G Img : Type} (env : Env σ G Img) (args : Args)
    (cerr : String → Err)
    (hhonour : ∀ fam w, env.ctxDone w = true →
      ∃ w2, env.WOFF2 fam w = (.error (cerr fam), w2) ∧ env.ctxDone w2 = true)
    (fonts : List Webfont) (st : St σ) (hdone : env.ctxDone st.world = true) :
    ∃ fin, renderFonts env args fonts st = .returned (none, fin) ∧
      fin.out = st.out ++ fonts.flatMap (fun p =>
        [headerLine p, errorLine ("unable to retrieve woff2 font face: " ++ cerr p.Family)]) ∧
      fin.calls = st.calls ++ fonts.map (fun p => Call.woff2 p.Family) ∧
      env.ctxDone fin.world = true := by
  induction fonts generalizing st with
  | nil => exact ⟨st, rfl, by simp, by simp, hdone⟩
  | cons f fs ih =>
    obtain ⟨w2, hw, hd2⟩ := hhonour f.Family st.world hdone
    have hw2 : env.WOFF2 f.Family (((st.write (headerLine f)).call (.woff2 f.Family))).world
        = (.error (cerr f.Family), w2) := hw
    have hg : args.grab env f.Family (st.write (headerLine f))
        = .returned ((none, some ("unable to retrieve woff2 font face: " ++ cerr f.Family)),
            ((st.write (headerLine f)).call (.woff2 f.Family)).setWorld w2) := by
      simp only [Args.grab, hw2]
    obtain ⟨fin, hr, hout, hcalls, hfin⟩ :=
      ih ((((st.write (headerLine f)).call (.woff2 f.Family)).setWorld w2).write
        (errorLine ("unable to retrieve woff2 font face: " ++ cerr f.Family))) hd2
    refine ⟨fin, ?_, ?_, ?_, hfin⟩
    · simp only [renderFonts, hg, hr]
    · rw [hout]
      simp [St.write, St.call, St.setWorld, List.flatMap_cons]
    · rw [hcalls]
      simp [St.write, St.call, St.setWorld]

/-- The render loop over an appended selection runs the second part from the state in
which the first part ends. -/
theorem renderFonts_append {σ G Img : Type} (env : Env σ G Img) (args : Args)
    (xs ys : List Webfont) (st mid : St σ)
    (h : renderFonts env args xs st = .returned (none, mid)) :
    renderFonts env args (xs ++ ys) st = renderFonts env args ys mid := by
  induction xs generalizing st with
  | nil =>
    simp only [renderFonts, Outcome.returned.injEq, Prod.mk.injEq, true_and] at h
    rw [List.nil_append, h]
  | cons x xs ih =>
    obtain ⟨b, st1, _, _, _, hstep⟩ := renderFonts_cons env args x st
    rw [hstep xs] at h
    rw [List.cons_append, hstep (xs ++ ys)]
    exact ih st1 h

/-- When the pre-flight steps pass, `showFonts` is the render loop over the selection. -/
theorem showFonts_eq_renderFonts {σ G Img : Type} (env : Env σ G Img) (args args2 : Args)
    (cliargs : List String) (st st2 st3 : St σ) (globs : List G) (families : List Webfont)
    (havail : env.Available = true) (hinit : args.init env st = (none, args2, st2))
    (hglobs : compileGlobs env 0 cliargs = .ok globs)
    (hfam : args2.families env st2 = (.ok families, st3)) :
    showFonts env args cliargs st
      = renderFonts env args2 (selectFonts env args2.All globs families) st3 := by
  simp only [showFonts, havail, hinit, hglobs, hfam, Bool.not_true, if_false]
  rfl

/-- The method `init` writes nothing to the sink. -/
theorem init_out {σ G Img : Type} (env : Env σ G Img) (args : Args) (st : St σ) :
    (args.init env st).2.2.out = st.out := by
  unfold Args.init
  split
  · rfl
  · simp only []
    split <;> (rename_i h; simp only [Args.buildCache, Prod.mk.injEq] at h; rw [← h.2]; rfl)

/-- The method `families` writes nothing to the sink. -/
theorem families_out {σ G Img : Type} (env : Env σ G Img) (args : Args) (st : St σ) :
    (args.families env st).2.out = st.out := by
  rfl

/-- C1, as stated, fails: in a world where the terminal encoder breaks off after its
first write, the block of Roboto is the header line, the start of the image and an error
line, which is neither the header followed by an encoded image nor the header followed
by an error line. -/
theorem showFonts_block_with_broken_image :
    showFonts sampleEnv sampleArgs ["R*"] (startIn ⟨true, false, false, true⟩)
      = .returned (none, ⟨⟨true, false, false, true⟩,
          ["Roboto:\n", "<image start>", "error: short write\n"], [],
          [.diskcacheNew false, .families "k", .woff2 "Roboto",
            .httpDo "https://fonts.example/Roboto.woff2", .readAll,
            .rasterize [119, 79, 70, 50], .bodyClose, .encode]⟩) ∧
    selectFonts sampleEnv false ["R*".toList] sampleCatalog = [⟨"Roboto", "sans-serif"⟩] ∧
    ¬ ∃ blocks : List (List String),
        ["Roboto:\n", "<image start>", "error: short write\n"] = blocks.flatten ∧
        List.Forall₂ (ClaimedBlock sampleEnv) [⟨"Roboto", "sans-serif"⟩] blocks := by
  refine ⟨by decide, by decide, ?_⟩
  rintro ⟨blocks, hout, hb⟩
  cases hb with
  | cons h1 h2 =>
    cases h2
    simp only [List.flatten_cons, List.flatten_nil, List.append_nil] at hout
    cases h1 with
    | failed err => simp at hout
    | encoded img w w2 written he =>
      have hlen : written.length = 2 := by
        have := congrArg List.length hout
        simp only [List.length_cons, List.length_nil] at this
        omega
      cases img with
      | none => simp [sampleEnv] at he
      | some px =>
        by_cases hbroken : w.encoderBroken = true
        · simp [sampleEnv, hbroken] at he
        · have hb2 : w.encoderBroken = false := by
            cases hw : w.encoderBroken
            · rfl
            · exact absurd hw hbroken
          simp only [sampleEnv, hb2, Bool.false_eq_true, if_false, Prod.mk.injEq] at he
          rw [← he.1.1] at hlen
          simp at hlen

/-- C1, amended. Once the pre-flight steps have passed, for every selection and every
outcome (success or error) of the per-family fetch, rasterize and encode steps,
`showFonts` returns no error and writes exactly one output block per selected family, in
selection order.  The block of a family is decided by the outcome of its own steps: the
header line "<family>:" followed by the line "error: <error of grab>" when the fetch or
the rasterizer failed (the encoder is then not called), by what the encoder wrote for the
image returned by `grab` when the encoder succeeded, or by what the encoder wrote before
it failed and then the line "error: <error of the encoder>".  The fetch of every selected
family is attempted exactly once, in selection order, whatever happened to the families
before it. -/
theorem showFonts_blocks {σ G Img : Type} (env : Env σ G Img) (args args2 : Args)
    (cliargs : List String) (st st2 st3 : St σ) (globs : List G) (families : List Webfont)
    (havail : env.Available = true) (hinit : args.init env st = (none, args2, st2))
    (hglobs : compileGlobs env 0 cliargs = .ok globs)
    (hfam : args2.families env st2 = (.ok families, st3)) :
    ∃ blocks fin, showFonts env args cliargs st = .returned (none, fin) ∧
      Run env args2 (selectFonts env args2.All globs families) st3 blocks fin ∧
      blocks.length = (selectFonts env args2.All globs families).length ∧
      fin.out = st.out ++ blocks.flatten ∧
      fin.calls.filter Call.isWoff2 = st3.calls.filter Call.isWoff2
        ++ (selectFonts env args2.All globs families).map (fun f => Call.woff2 f.Family) := by
  obtain ⟨blocks, fin, hr, hrun, hout, hcalls⟩ :=
    renderFonts_spec env args2 (selectFonts env args2.All globs families) st3
  refine ⟨blocks, fin, ?_, hrun, Run_length env args2 _ st3 blocks fin hrun, ?_, hcalls⟩
  · rw [showFonts_eq_renderFonts env args args2 cliargs st st2 st3 globs families havail hinit
      hglobs hfam, hr]
  · have h1 := init_out env args st
    have h2 := families_out env args2 st2
    rw [hinit] at h1
    rw [hfam] at h2
    simp only [] at h1 h2
    rw [hout, h2, h1]

/-- C1 amended, at a concrete input: the arguments `*` in a world where everything
works; Roboto is rendered, Open Sans and Oswald fail. -/
theorem showFonts_blocks_witness :
    sampleEnv.Available = true ∧
    sampleArgs.init sampleEnv (startIn sampleWorld)
      = (none, sampleArgs, ⟨sampleWorld, [], [], [.diskcacheNew false]⟩) ∧
    compileGlobs sampleEnv 0 ["*"] = .ok ["*".toList] ∧
    sampleArgs.families sampleEnv ⟨sampleWorld, [], [], [.diskcacheNew false]⟩
      = (.ok sampleCatalog, ⟨sampleWorld, [], [], [.diskcacheNew false, .families "k"]⟩) ∧
    ∃ blocks fin, showFonts sampleEnv sampleArgs ["*"] (startIn sampleWorld)
        = .returned (none, fin) ∧
      Run sampleEnv sampleArgs (selectFonts sampleEnv sampleArgs.All ["*".toList] sampleCatalog)
        ⟨sampleWorld, [], [], [.diskcacheNew false, .families "k"]⟩ blocks fin ∧
      blocks.length
        = (selectFonts sampleEnv sampleArgs.All ["*".toList] sampleCatalog).length ∧
      fin.out = (startIn sampleWorld).out ++ blocks.flatten ∧
      fin.calls.filter Call.isWoff2
        = (⟨sampleWorld, [], [], [.diskcacheNew false, .families "k"]⟩ : St World).calls.filter
            Call.isWoff2
          ++ (selectFonts sampleEnv sampleArgs.All ["*".toList] sampleCatalog).map
              (fun f => Call.woff2 f.Family) :=
  ⟨rfl, rfl, rfl, rfl,
    showFonts_blocks sampleEnv sampleArgs sampleArgs ["*"] (startIn sampleWorld)
      ⟨sampleWorld, [], [], [.diskcacheNew false]⟩
      ⟨sampleWorld, [], [], [.diskcacheNew false, .families "k"]⟩ ["*".toList] sampleCatalog
      rfl rfl rfl rfl⟩

/-- C9, as stated, fails: the user cancels the shared context during the fetch of
Roboto, the first of three selected families.  `showFonts` still writes the header line
of Open Sans and of Oswald, still tries to resolve their faces, and returns nil. -/
theorem showFonts_continues_when_cancelled :
    showFonts sampleEnv sampleArgs ["*"] (startIn ⟨true, false, true, false⟩)
      = .returned (none, ⟨⟨true, true, false, false⟩,
          ["Roboto:\n", "error: unable to retrieve woff2: context canceled\n",
           "Open Sans:\n", "error: unable to retrieve woff2 font face: context canceled\n",
           "Oswald:\n", "error: unable to retrieve woff2 font face: context canceled\n"], [],
          [.diskcacheNew false, .families "k", .woff2 "Roboto",
            .httpDo "https://fonts.example/Roboto.woff2", .woff2 "Open Sans",
            .woff2 "Oswald"]⟩) := by
  decide

/-- C9, amended. `showFonts` never looks at the shared context.  If the context is
cancelled while family i of the selection is being processed, the loop neither stops nor
returns an error: every family after i still has its turn, in selection order, with its
header line, its fetch attempted exactly once and its block decided by the outcome of its
own steps, and `showFonts` returns nil.  When moreover the face resolution honours the
cancelled context by returning an error, the block of every family after i is exactly
its header line followed by the line "error: unable to retrieve woff2 font face: <that
error>", and the face resolutions are the only calls made for these families. -/
theorem showFonts_ignores_cancel {σ G Img : Type} (env : Env σ G Img) (args args2 : Args)
    (cliargs : List String) (st st2 st3 mid : St σ) (globs : List G)
    (families pre post : List Webfont) (f : Webfont)
    (havail : env.Available = true) (hinit : args.init env st = (none, args2, st2))
    (hglobs : compileGlobs env 0 cliargs = .ok globs)
    (hfam : args2.families env st2 = (.ok families, st3))
    (hsel : selectFonts env args2.All globs families = pre ++ f :: post)
    (hf : renderFonts env args2 (pre ++ [f]) st3 = .returned (none, mid))
    (hdone : env.ctxDone mid.world = true) :
    (∃ blocks fin, showFonts env args cliargs st = .returned (none, fin) ∧
      Run env args2 post mid blocks fin ∧
      blocks.length = post.length ∧
      fin.out = mid.out ++ blocks.flatten ∧
      fin.calls.filter Call.isWoff2 = mid.calls.filter Call.isWoff2
        ++ post.map (fun p => Call.woff2 p.Family)) ∧
    (∀ cerr : String → Err,
      (∀ fam w, env.ctxDone w = true →
        ∃ w2, env.WOFF2 fam w = (.error (cerr fam), w2) ∧ env.ctxDone w2 = true) →
      ∃ fin, showFonts env args cliargs st = .returned (none, fin) ∧
        fin.out = mid.out ++ post.flatMap (fun p =>
          [headerLine p, errorLine ("unable to retrieve woff2 font face: " ++ cerr p.Family)]) ∧
        fin.calls = mid.calls ++ post.map (fun p => Call.woff2 p.Family) ∧
        env.ctxDone fin.world = true) := by
  have hshow : showFonts env args cliargs st = renderFonts env args2 post mid := by
    rw [showFonts_eq_renderFonts env args args2 cliargs st st2 st3 globs families havail hinit
      hglobs hfam, hsel]
    have h1 : pre ++ f :: post = (pre ++ [f]) ++ post := by simp
    rw [h1, renderFonts_append env args2 (pre ++ [f]) post st3 mid hf]
  constructor
  · obtain ⟨blocks, fin, hr, hrun, hout, hcalls⟩ := renderFonts_spec env args2 post mid
    exact ⟨blocks, fin, by rw [hshow, hr], hrun, Run_length env args2 post mid blocks fin hrun,
      hout, hcalls⟩
  · intro cerr hhonour
    obtain ⟨fin, hr, hout, hcalls, hfin⟩ :=
      renderFonts_cancelled env args2 cerr hhonour post mid hdone
    exact ⟨fin, by rw [hshow, hr], hout, hcalls, hfin⟩

/-- C9 amended, at a concrete input: the user cancels during the fetch of Roboto, the
first of the three families selected by `*`; the concrete face resolution honours the
cancelled context with the error "context canceled". -/
theorem showFonts_ignores_cancel_witness :
    sampleEnv.Available = true ∧
    sampleArgs.init sampleEnv (startIn ⟨true, false, true, false⟩)
      = (none, sampleArgs, ⟨⟨true, false, true, false⟩, [], [], [.diskcacheNew false]⟩) ∧
    compileGlobs sampleEnv 0 ["*"] = .ok ["*".toList] ∧
    sampleArgs.families sampleEnv ⟨⟨true, false, true, false⟩, [], [], [.diskcacheNew false]⟩
      = (.ok sampleCatalog,
          ⟨⟨true, false, true, false⟩, [], [], [.diskcacheNew false, .families "k"]⟩) ∧
    selectFonts sampleEnv sampleArgs.All ["*".toList] sampleCatalog
      = [] ++ ⟨"Roboto", "sans-serif"⟩ :: [⟨"Open Sans", "sans-serif"⟩, ⟨"Oswald", "sans-serif"⟩] ∧
    renderFonts sampleEnv sampleArgs ([] ++ [⟨"Roboto", "sans-serif"⟩])
        ⟨⟨true, false, true, false⟩, [], [], [.diskcacheNew false, .families "k"]⟩
      = .returned (none, ⟨⟨true, true, false, false⟩,
          ["Roboto:\n", "error: unable to retrieve woff2: context canceled\n"], [],
          [.diskcacheNew false, .families "k", .woff2 "Roboto",
            .httpDo "https://fonts.example/Roboto.woff2"]⟩) ∧
    sampleEnv.ctxDone (⟨true, true, false, false⟩ : World) = true ∧
    (∀ fam w, sampleEnv.ctxDone w = true →
      ∃ w2, sampleEnv.WOFF2 fam w = (.error "context canceled", w2) ∧
        sampleEnv.ctxDone w2 = true) ∧
    ∃ fin, showFonts sampleEnv sampleArgs ["*"] (startIn ⟨true, false, true, false⟩)
        = .returned (none, fin) ∧
      fin.out = ["Roboto:\n", "error: unable to retrieve woff2: context canceled\n"]
        ++ ([⟨"Open Sans", "sans-serif"⟩, ⟨"Oswald", "sans-serif"⟩] : List Webfont).flatMap
            (fun p => [headerLine p,
              errorLine ("unable to retrieve woff2 font face: " ++ "context canceled")]) ∧
      fin.calls = [.diskcacheNew false, .families "k", .woff2 "Roboto",
            .httpDo "https://fonts.example/Roboto.woff2"]
          ++ ([⟨"Open Sans", "sans-serif"⟩, ⟨"Oswald", "sans-serif"⟩] : List Webfont).map
              (fun p => Call.woff2 p.Family) ∧
      sampleEnv.ctxDone fin.world = true :=
  ⟨rfl, rfl, rfl, rfl, by decide, by decide, rfl,
    fun _ w h => ⟨w, by simp only [sampleEnv] at h ⊢; simp [h], h⟩,
    (showFonts_ignores_cancel sampleEnv sampleArgs sampleArgs ["*"]
      (startIn ⟨true, false, true, false⟩)
      ⟨⟨true, false, true, false⟩, [], [], [.diskcacheNew false]⟩
      ⟨⟨true, false, true, false⟩, [], [], [.diskcacheNew false, .families "k"]⟩
      ⟨⟨true, true, false, false⟩,
        ["Roboto:\n", "error: unable to retrieve woff2: context canceled\n"], [],
        [.diskcacheNew false, .families "k", .woff2 "Roboto",
          .httpDo "https://fonts.example/Roboto.woff2"]⟩
      ["*".toList] sampleCatalog [] [⟨"Open Sans", "sans-serif"⟩, ⟨"Oswald", "sans-serif"⟩]
      ⟨"Roboto", "sans-serif"⟩ rfl rfl rfl rfl (by decide) (by decide) rfl).2
      (fun _ => "context canceled")
      (fun _ w h => ⟨w, by simp only [sampleEnv] at h ⊢; simp [h], h⟩)⟩

end Wfiv
